import Mathlib

set_option maxHeartbeats 1000000

/-!
Shallow embedding of `src/deploy.py` (class `Deploy`): the change classifier
(`needs_build`), the secret synchronizer (`decrypt_secrets`), the reconciler
(`manipulate_app`), the diff wrapper (`git_changed_files_for_dir`), the global
cleanup (`global_cleanup`) and the fleet driver (`run`).

Modelling conventions:
* Paths and command arguments are `String`s; character-level work (regex
  matching, `str.endswith`, `str.strip`) is done on `String.data : List Char`.
* The filesystem is a predicate `String → Bool` ("a regular file exists at this
  path"); `os.path.isfile` and `os.path.exists` are modelled identically, since
  the only paths queried are the two dotenv files of an application directory.
* Every external child process is recorded as an `Ev.cmd` event carrying the
  exact argv list, the working directory and whether stdout is captured; its
  outcome (captured stdout, or `subprocess.CalledProcessError`) is supplied by
  a `World` value.  `os.remove` is the `Ev.rm` event; `print` to stdout/stderr
  are `Ev.out`/`Ev.err` events (f-string text reproduced, exception reprs
  elided from messages).
* A Python exception escaping a function is `some Crash.calledProcessError`
  (for `subprocess.CalledProcessError`) or `some Crash.attributeError` (for the
  unbound-name failure in `decrypt_secrets`, see below).
-/

namespace Deploy

/-- `p` is a prefix of `s` (chars compared with `==`). -/
def hasPre : List Char → List Char → Bool
  | [], _ => true
  | _ :: _, [] => false
  | a :: p, b :: s => a == b && hasPre p s

/-- `p` occurs contiguously somewhere inside `s`. -/
def hasSub (p : List Char) : List Char → Bool
  | [] => hasPre p []
  | b :: s => hasPre p (b :: s) || hasSub p s

/-- `p` is a suffix of `s`. -/
def hasSuf (p s : List Char) : Bool := hasPre p.reverse s.reverse

/-- Python `s.endswith(suf)`. -/
def pyEndsWith (s suf : String) : Bool := hasSuf suf.data s.data

/-- Python `s.strip()`: drop whitespace at both ends. -/
def pyStrip (s : String) : String :=
  ⟨((s.data.dropWhile Char.isWhitespace).reverse.dropWhile Char.isWhitespace).reverse⟩

/-- The subject string lowered for `re.IGNORECASE` matching. -/
def lowerData (f : String) : List Char := f.data.map Char.toLower

/-- Python's `$` (no `re.MULTILINE`) matches at end of string or just before one
final newline; dropping that newline once turns every `X$` of the pattern into
an exact suffix test. -/
def dollarTrim (g : List Char) : List Char :=
  if g.getLast? = some '\n' then g.dropLast else g

/-- The character list `needs_build`'s regex is matched against: the path
lowered (IGNORECASE), with one final newline discarded (see `dollarTrim`; none
of the pattern literals contain a newline, so searching the unanchored
`Dockerfile` alternative in the trimmed subject finds exactly the same
occurrences). -/
def canon (f : String) : List Char := dollarTrim (lowerData f)

/-- One path matches `re.search` of deploy.py line 77's pattern
`(^|/)(Dockerfile|requirements(\.txt)?$|compose\.ya?ml$|compose\.yml$)` with
`re.IGNORECASE`: the group `(^|/)` puts each literal at the start of the path
or right after a `/`; the alternatives with `$` must moreover end the path.
The `compose\.ya?ml$` alternative already covers the redundant
`compose\.yml$` one. -/
def matchesBuildPattern (f : String) : Bool :=
  (hasPre "dockerfile".data (canon f) || hasSub ('/' :: "dockerfile".data) (canon f)) ||
  ((canon f == "requirements".data || hasSuf ('/' :: "requirements".data) (canon f)) ||
   ((canon f == "requirements.txt".data || hasSuf ('/' :: "requirements.txt".data) (canon f)) ||
    ((canon f == "compose.yml".data || hasSuf ('/' :: "compose.yml".data) (canon f)) ||
     (canon f == "compose.yaml".data || hasSuf ('/' :: "compose.yaml".data) (canon f)))))

/-- `Deploy.needs_build` (deploy.py lines 75-82): scan the changed files,
return `True` on the first regex match, else `False`. -/
def needs_build (changed_files : List String) : Bool :=
  changed_files.any matchesBuildPattern

/-- Occurrence form of `(^|/)X` somewhere in `g`: `X` appears with a `/` (or
the start of the string) right before it. -/
def segStarts (X g : List Char) : Prop :=
  ∃ pre post, g = pre ++ X ++ post ∧ (pre = [] ∨ ∃ q, pre = q ++ ['/'])

/-- Occurrence form of `(^|/)X$`: `g` is exactly `X`, possibly preceded by a
`/`-terminated prefix — i.e. the final path segment of `g` is exactly `X`. -/
def segIs (X g : List Char) : Prop :=
  ∃ pre, (pre = [] ∨ ∃ q, pre = q ++ ['/']) ∧ g = pre ++ X

/-- Declarative characterisation of a build-triggering path, proven equivalent
to `matchesBuildPattern`: either some path segment begins with `dockerfile`
(anywhere in the path, no end anchor), or the final segment is exactly
`requirements`, `requirements.txt`, `compose.yml` or `compose.yaml` — all on
the lowered (case-insensitive) path. -/
def buildTrigger (f : String) : Prop :=
  segStarts "dockerfile".data (canon f) ∨
  (segIs "requirements".data (canon f) ∨
   (segIs "requirements.txt".data (canon f) ∨
    (segIs "compose.yml".data (canon f) ∨ segIs "compose.yaml".data (canon f))))

/-- The characters after the last `/` of `g`. -/
def lastSegment (g : List Char) : List Char :=
  (g.reverse.takeWhile (fun c => c ≠ '/')).reverse

/-- Modelled from the claim's words (for refutation only): the path's final
segment, compared case-insensitively, is exactly `Dockerfile`, `requirements`,
`requirements.txt`, `compose.yml` or `compose.yaml`. -/
def claimBuildMatch (f : String) : Bool :=
  lastSegment (lowerData f) == "dockerfile".data ||
  lastSegment (lowerData f) == "requirements".data ||
  lastSegment (lowerData f) == "requirements.txt".data ||
  lastSegment (lowerData f) == "compose.yml".data ||
  lastSegment (lowerData f) == "compose.yaml".data

/-- Observable effects of a run: spawned child processes (exact argv, working
directory, whether stdout is captured), file deletions, and stdout/stderr log
lines. -/
inductive Ev where
  | cmd (argv : List String) (cwd : String) (capture : Bool)
  | rm (path : String)
  | out (msg : String)
  | err (msg : String)
  deriving DecidableEq

/-- A Python exception escaping a function of deploy.py: either
`subprocess.CalledProcessError` from a failed child process, or the
`AttributeError` raised inside `decrypt_secrets` (see there). -/
inductive Crash where
  | calledProcessError
  | attributeError
  deriving DecidableEq

/-- The external collaborators and ambient state of one fleet run: the
discovered application directories, the starting filesystem, and the outcome
of every child process (`Except.error ()` models a non-zero exit, i.e.
`subprocess.CalledProcessError`; for captured commands `Except.ok raw` is the
raw stdout before `.strip()`).  `updateOk` collapses the four git commands of
`updating_repo` into one outcome, since every claim only distinguishes whether
the repository-update step as a whole passed; `prevCommit`/`currCommit` are the
stripped `git rev-parse HEAD` outputs taken before/after the update. -/
structure World where
  fleetDir : String
  fs0 : String → Bool
  updateOk : Bool
  prevCommit : String
  currCommit : String
  appDirs : List String
  diffRaw : String → Except Unit String
  psRaw : String → Except Unit String
  upBuildRes : String → Except Unit Unit
  upRes : String → Except Unit Unit
  restartRes : String → Except Unit Unit
  pruneRes : Except Unit Unit

/-- Replace the outcome of the final `docker system prune` command. -/
def setPrune (w : World) (e : Except Unit Unit) : World :=
  { w with pruneRes := e }

/-- Is this event a spawned child process? -/
def isCmdEv : Ev → Bool
  | Ev.cmd _ _ _ => true
  | _ => false

/-- The `docker system prune -af` command event issued by `global_cleanup`
(run_cmd's default working directory is the fleet directory). -/
def pruneCmdEv (w : World) (d : String) : Ev :=
  Ev.cmd [d, "system", "prune", "-af"] w.fleetDir false

/-- The `git diff` command event issued for one application directory. -/
def diffCmdEv (w : World) (app_dir : String) : Ev :=
  Ev.cmd ["git", "diff", "--name-only", w.prevCommit, w.currCommit, "--", app_dir] w.fleetDir true

/-- Delete one path from the filesystem (`os.remove`). -/
def fsRemove (fs : String → Bool) (q : String) : String → Bool :=
  fun p => if p = q then false else fs p

/-- `Deploy.git_changed_files_for_dir` (deploy.py lines 63-73): capture
`git diff --name-only prev curr -- app_dir` (run_cmd strips the output), split
into lines keeping only those with non-whitespace content; on
`CalledProcessError` return the empty list.  (Python `splitlines` is modelled
as splitting on `'\n'`; git's output uses exactly that separator.) -/
def git_changed_files_for_dir (w : World) (app_dir : String) : List String :=
  match w.diffRaw app_dir with
  | Except.error _ => []
  | Except.ok raw =>
    if pyStrip raw = "" then []
    else (((pyStrip raw).data.splitOn '\n').map (fun l => (⟨l⟩ : String))).filter
      (fun line => pyStrip line ≠ "")

/-- `Deploy.decrypt_secrets` (deploy.py lines 125-152).  If
`app_dir/.env.enc` is not a file: delete `app_dir/.env` if it exists, and
return.  Otherwise scan `changed_files` for the first path ending in
`.env.enc`; if none, return without action.  If one is found the loop body
prints, then builds the sops argv — whose first element reads
`self.sops_filename`, an attribute that is never assigned (`__init__` sets
`sops_path`), so Python raises `AttributeError` there (the unbound local
`deploy_dir` in the `cwd` argument would likewise raise); the decryption tool
is never actually spawned. -/
def decrypt_secrets (fs : String → Bool) (app_dir : String) (changed_files : List String) :
    List Ev × (String → Bool) × Option Crash :=
  if fs (app_dir ++ "/.env.enc") = false then
    if fs (app_dir ++ "/.env") = true then
      ([Ev.rm (app_dir ++ "/.env")], fsRemove fs (app_dir ++ "/.env"), none)
    else ([], fs, none)
  else if changed_files.any (fun f => pyEndsWith f ".env.enc") = true then
    ([Ev.out ("   [Secrets change] Decrypting " ++ (app_dir ++ "/.env.enc") ++ " to " ++
        (app_dir ++ "/.env") ++ "...")],
     fs, some Crash.attributeError)
  else ([], fs, none)

/-- `Deploy.manipulate_app` (deploy.py lines 92-110).  With `rebuild` issue
`compose up -d --build --remove-orphans` in the application directory; without
it, query `compose ps -q` (a `CalledProcessError` there is swallowed and
treated as empty output), then `compose restart` if the stripped output is
non-empty, else `compose up -d --remove-orphans`.  A failing action command
raises `CalledProcessError` to the caller. -/
def manipulate_app (w : World) (d : String) (app_dir : String) (rebuild : Bool) :
    List Ev × Option Crash :=
  if rebuild then
    let evs := [Ev.out ("   [Build-relevant changes] Rebuilding and deploying " ++ app_dir ++ "..."),
                Ev.cmd [d, "compose", "up", "-d", "--build", "--remove-orphans"] app_dir false]
    match w.upBuildRes app_dir with
    | Except.ok _ => (evs, none)
    | Except.error _ => (evs, some Crash.calledProcessError)
  else
    let evs0 := [Ev.out ("   [Runtime-only changes] Checking " ++ app_dir ++ "..."),
                 Ev.cmd [d, "compose", "ps", "-q"] app_dir true]
    let project_containers :=
      match w.psRaw app_dir with
      | Except.ok raw => pyStrip raw
      | Except.error _ => ""
    if project_containers ≠ "" then
      let evs := evs0 ++ [Ev.out "   Restarting...",
                          Ev.cmd [d, "compose", "restart"] app_dir false]
      match w.restartRes app_dir with
      | Except.ok _ => (evs, none)
      | Except.error _ => (evs, some Crash.calledProcessError)
    else
      let evs := evs0 ++ [Ev.out "   Creating (up)...",
                          Ev.cmd [d, "compose", "up", "-d", "--remove-orphans"] app_dir false]
      match w.upRes app_dir with
      | Except.ok _ => (evs, none)
      | Except.error _ => (evs, some Crash.calledProcessError)

/-- `Deploy.global_cleanup` (deploy.py lines 84-90): print, run
`docker system prune -af` from the fleet directory, and swallow a
`CalledProcessError` into a stderr warning — this function never raises. -/
def global_cleanup (w : World) (d : String) : List Ev :=
  [Ev.out ">> Pruning system...", pruneCmdEv w d] ++
  (match w.pruneRes with
   | Except.ok _ => []
   | Except.error _ => [Ev.err "WARNING: docker system prune failed"])

/-- Events of `Deploy.updating_repo` (deploy.py lines 112-123) when the update
succeeds: the two rev-parse captures around fetch/hard-reset, plus the
submodule update when `fleet_dir/.gitmodules` exists. -/
def updateEvs (w : World) : List Ev :=
  [Ev.out ">> Updating repository...",
   Ev.cmd ["git", "rev-parse", "HEAD"] w.fleetDir true,
   Ev.cmd ["git", "fetch", "origin", "main"] w.fleetDir false,
   Ev.cmd ["git", "reset", "--hard", "origin/main"] w.fleetDir false,
   Ev.cmd ["git", "rev-parse", "HEAD"] w.fleetDir true] ++
  (if w.fs0 (w.fleetDir ++ "/.gitmodules") = true then
     [Ev.out ">> Updating submodules...",
      Ev.cmd ["git", "submodule", "update", "--init"] w.fleetDir false]
   else [])

/-- The body of `Deploy.run`'s per-application loop (deploy.py lines 162-176):
print, diff, skip when nothing changed; else classify, sync secrets (any
exception there propagates — the call sits outside the `try`), then reconcile
inside a `try` that catches only `subprocess.CalledProcessError` and logs it
to stderr. -/
def processApp (w : World) (d : String) (fs : String → Bool) (app_dir : String) :
    List Ev × (String → Bool) × Option Crash :=
  let evs0 := [Ev.out (">> Processing app: " ++ app_dir), diffCmdEv w app_dir]
  let changed := git_changed_files_for_dir w app_dir
  if changed = [] then
    (evs0 ++ [Ev.out ("   [No changes] Skipping " ++ app_dir)], fs, none)
  else
    let rebuild := needs_build changed
    match decrypt_secrets fs app_dir changed with
    | (devs, fs', some c) => (evs0 ++ devs, fs', some c)
    | (devs, fs', none) =>
      match manipulate_app w d app_dir rebuild with
      | (mevs, some Crash.calledProcessError) =>
        (evs0 ++ devs ++ mevs ++ [Ev.err ("ERROR: Docker operation failed for " ++ app_dir)],
         fs', none)
      | (mevs, some c) => (evs0 ++ devs ++ mevs, fs', some c)
      | (mevs, none) => (evs0 ++ devs ++ mevs, fs', none)

/-- `Deploy.run`'s loop over the discovered application directories, threading
the filesystem; an uncaught exception aborts the remaining applications. -/
def runApps (w : World) (d : String) (fs : String → Bool) :
    List String → List Ev × (String → Bool) × Option Crash
  | [] => ([], fs, none)
  | a :: rest =>
    match processApp w d fs a with
    | (evs, fs', some c) => (evs, fs', some c)
    | (evs, fs', none) =>
      let r := runApps w d fs' rest
      (evs ++ r.1, r.2)

/-- `Deploy.run` (deploy.py lines 154-179): banner, repository update (a
failure there is fatal and aborts before any application is processed — the
partial git events of a failed update are elided), the per-application loop,
and — only when the loop finishes without an uncaught exception — the global
cleanup and the completion banner. -/
def run (w : World) (d : String) : List Ev × (String → Bool) × Option Crash :=
  let evs0 := [Ev.out "--- Starting Deployment ---"]
  if w.updateOk = false then
    (evs0 ++ [Ev.out ">> Updating repository..."], w.fs0, some Crash.calledProcessError)
  else
    let evs1 := evs0 ++ updateEvs w ++
      (if w.appDirs = [] then [Ev.out ">> No compose files found. Nothing to do."] else [])
    match runApps w d w.fs0 w.appDirs with
    | (aevs, fs', some c) => (evs1 ++ aevs, fs', some c)
    | (aevs, fs', none) =>
      (evs1 ++ aevs ++ global_cleanup w d ++ [Ev.out "--- Deployment Complete ---"], fs', none)

/-- Filesystem of a single application `a` that carries an encrypted bundle. -/
def fsEncOnly : String → Bool := fun p => p == "a/.env.enc"

/-- Concrete world for C2's counterexample: two applications, the first with a
changed encrypted bundle. -/
def W2 : World :=
  { fleetDir := "/fleet", fs0 := fsEncOnly, updateOk := true,
    prevCommit := "c0", currCommit := "c1", appDirs := ["a", "b"],
    diffRaw := fun a => if a == "a" then Except.ok "a/.env.enc" else Except.ok "b/x.txt",
    psRaw := fun _ => Except.ok "", upBuildRes := fun _ => Except.ok (),
    upRes := fun _ => Except.ok (), restartRes := fun _ => Except.ok (),
    pruneRes := Except.ok () }

/-- Concrete world for C7's counterexample: one application whose changed
encrypted bundle makes `decrypt_secrets` raise, so the run never reaches the
cleanup. -/
def W7 : World :=
  { fleetDir := "/f7", fs0 := fun p => p == "app1/.env.enc", updateOk := true,
    prevCommit := "r0", currCommit := "r1", appDirs := ["app1"],
    diffRaw := fun _ => Except.ok "app1/.env.enc",
    psRaw := fun _ => Except.ok "", upBuildRes := fun _ => Except.ok (),
    upRes := fun _ => Except.ok (), restartRes := fun _ => Except.ok (),
    pruneRes := Except.ok () }

/-- Concrete world for witnesses about the reconciler and the driver: one
application with a runtime-only change and one running container. -/
def W4 : World :=
  { fleetDir := "/f4", fs0 := fun _ => false, updateOk := true,
    prevCommit := "p", currCommit := "q", appDirs := ["app1"],
    diffRaw := fun a => if a == "app1" then Except.ok "app1/README.md" else Except.error (),
    psRaw := fun _ => Except.ok "abc123\n", upBuildRes := fun _ => Except.ok (),
    upRes := fun _ => Except.ok (), restartRes := fun _ => Except.ok (),
    pruneRes := Except.ok () }

/-- Concrete world for C6's witness: the diff command fails for `app1`, and
`app2` has a real change. -/
def W6 : World :=
  { fleetDir := "/f6", fs0 := fun _ => false, updateOk := true,
    prevCommit := "p", currCommit := "q", appDirs := ["app1", "app2"],
    diffRaw := fun a => if a == "app1" then Except.error () else Except.ok "app2/README.md",
    psRaw := fun _ => Except.error (), upBuildRes := fun _ => Except.ok (),
    upRes := fun _ => Except.ok (), restartRes := fun _ => Except.ok (),
    pruneRes := Except.error () }

end Deploy

namespace Deploy

theorem hasPre_iff (p : List Char) : ∀ s, hasPre p s = true ↔ ∃ t, s = p ++ t := by
  induction p with
  | nil => intro s; simp [hasPre]
  | cons a p ih =>
    intro s
    cases s with
    | nil => simp [hasPre]
    | cons b s =>
      simp only [hasPre, Bool.and_eq_true, beq_iff_eq, ih, List.cons_append,
        List.cons.injEq]
      constructor
      · rintro ⟨rfl, t, rfl⟩; exact ⟨t, rfl, rfl⟩
      · rintro ⟨t, rfl, rfl⟩; exact ⟨rfl, t, rfl⟩

theorem hasSub_iff (p : List Char) : ∀ s, hasSub p s = true ↔ ∃ u t, s = u ++ p ++ t := by
  intro s
  induction s with
  | nil =>
    simp only [hasSub, hasPre_iff]
    constructor
    · rintro ⟨t, ht⟩; exact ⟨[], t, ht⟩
    · rintro ⟨u, t, ht⟩
      rcases List.append_eq_nil.1 ht.symm with ⟨h1, h2⟩
      rcases List.append_eq_nil.1 h1 with ⟨rfl, rfl⟩
      exact ⟨[], by simp⟩
  | cons b s ih =>
    simp only [hasSub, Bool.or_eq_true, hasPre_iff, ih]
    constructor
    · rintro (⟨t, ht⟩ | ⟨u, t, ht⟩)
      · exact ⟨[], t, by simpa using ht⟩
      · exact ⟨b :: u, t, by simp [ht]⟩
    · rintro ⟨u, t, ht⟩
      cases u with
      | nil => exact Or.inl ⟨t, by simpa using ht⟩
      | cons c u =>
        have h := ht
        simp only [List.cons_append, List.append_assoc, List.cons.injEq] at h
        exact Or.inr ⟨u, t, by simp [h.2]⟩

theorem hasSuf_iff (p s : List Char) : hasSuf p s = true ↔ ∃ u, s = u ++ p := by
  simp only [hasSuf, hasPre_iff]
  constructor
  · rintro ⟨t, ht⟩
    refine ⟨t.reverse, ?_⟩
    have := congrArg List.reverse ht
    simpa using this
  · rintro ⟨u, rfl⟩
    exact ⟨u.reverse, by simp⟩

theorem boundary_sub (X g : List Char) :
    (hasPre X g || hasSub ('/' :: X) g) = true ↔ segStarts X g := by
  simp only [Bool.or_eq_true, hasPre_iff, hasSub_iff, segStarts]
  constructor
  · rintro (⟨t, rfl⟩ | ⟨u, t, rfl⟩)
    · exact ⟨[], t, by simp⟩
    · exact ⟨u ++ ['/'], t, by simp, Or.inr ⟨u, rfl⟩⟩
  · rintro ⟨pre, post, rfl, (rfl | ⟨q, rfl⟩)⟩
    · exact Or.inl ⟨post, by simp⟩
    · exact Or.inr ⟨q, post, by simp⟩

theorem boundary_end (X g : List Char) :
    (g == X || hasSuf ('/' :: X) g) = true ↔ segIs X g := by
  simp only [Bool.or_eq_true, beq_iff_eq, hasSuf_iff, segIs]
  constructor
  · rintro (rfl | ⟨u, rfl⟩)
    · exact ⟨[], Or.inl rfl, by simp⟩
    · exact ⟨u ++ ['/'], Or.inr ⟨u, rfl⟩, by simp⟩
  · rintro ⟨pre, (rfl | ⟨q, rfl⟩), rfl⟩
    · exact Or.inl (by simp)
    · exact Or.inr ⟨q, by simp⟩

theorem matchesBuildPattern_iff (f : String) :
    matchesBuildPattern f = true ↔ buildTrigger f := by
  simp only [matchesBuildPattern, buildTrigger, Bool.or_eq_true]
  rw [← Bool.or_eq_true (hasPre "dockerfile".data (canon f)), boundary_sub,
    ← Bool.or_eq_true (canon f == "requirements".data), boundary_end,
    ← Bool.or_eq_true (canon f == "requirements.txt".data), boundary_end,
    ← Bool.or_eq_true (canon f == "compose.yml".data), boundary_end,
    ← Bool.or_eq_true (canon f == "compose.yaml".data), boundary_end]

/-- C1 (counterexample): the code classifies `["Dockerfile.prod"]` as
BUILD_REQUIRED although no path's final segment is exactly one of the five
names — the regex's `Dockerfile` alternative has no end anchor, so
`Dockerfile.prod` matches via its proper prefix. -/
theorem needs_build_claim_counterexample :
    needs_build ["Dockerfile.prod"] = true ∧
    (["Dockerfile.prod"] : List String).any claimBuildMatch = false := by
  decide

/-- C1 (amended): `needs_build` returns true iff some changed path,
case-insensitively, has a segment beginning with `dockerfile` (the segment may
merely start with it, e.g. `Dockerfile.prod`, and may sit anywhere in the
path), or has final segment exactly `requirements`, `requirements.txt`,
`compose.yml` or `compose.yaml`. -/
theorem needs_build_characterization (l : List String) :
    needs_build l = true ↔ ∃ f ∈ l, buildTrigger f := by
  simp only [needs_build, List.any_eq_true, matchesBuildPattern_iff]

/-- Witness for C1's amended theorem at a concrete input. -/
theorem needs_build_characterization_witness :
    needs_build ["srv/Dockerfile.dev", "README.md"] = true :=
  (needs_build_characterization ["srv/Dockerfile.dev", "README.md"]).mpr
    ⟨"srv/Dockerfile.dev", by decide,
     Or.inl ⟨"srv/".data, ".dev".data, by decide, Or.inr ⟨"srv".data, by decide⟩⟩⟩

/-- C10: the verdict of `needs_build` depends only on which paths occur in the
input (hence is unchanged under permutation and duplication), and it is
monotone toward BUILD_REQUIRED under adding paths. -/
theorem needs_build_extensional_and_monotone :
    (∀ l l' : List String, (∀ x, x ∈ l ↔ x ∈ l') → needs_build l = needs_build l') ∧
    (∀ l l' : List String, l ⊆ l' → needs_build l = true → needs_build l' = true) := by
  have mono : ∀ l l' : List String, l ⊆ l' → needs_build l = true → needs_build l' = true := by
    intro l l' hsub hb
    rcases List.any_eq_true.1 hb with ⟨x, hx, hpx⟩
    exact List.any_eq_true.2 ⟨x, hsub hx, hpx⟩
  refine ⟨?_, mono⟩
  intro l l' h
  cases hb : needs_build l with
  | true => exact (mono l l' (fun x hx => (h x).1 hx) hb).symm
  | false =>
    cases hb' : needs_build l' with
    | true => rw [← hb]; exact mono l' l (fun x hx => (h x).2 hx) hb'
    | false => rfl

/-- Witness for C10 at concrete inputs: a permuted-and-duplicated list gets the
same verdict, and extending a BUILD_REQUIRED list keeps the verdict. -/
theorem needs_build_extensional_and_monotone_witness :
    needs_build ["a.txt", "sub/compose.yaml"] = needs_build ["sub/compose.yaml", "a.txt", "a.txt"] ∧
    needs_build ["x/Dockerfile", "y.md"] = true := by
  constructor
  · refine needs_build_extensional_and_monotone.1 _ _ ?_
    intro x
    constructor <;> (intro hx; simp only [List.mem_cons, List.not_mem_nil, or_false] at hx ⊢; tauto)
  · refine needs_build_extensional_and_monotone.2 ["x/Dockerfile"] _ ?_ (by decide)
    intro x hx
    simp only [List.mem_cons, List.not_mem_nil, or_false] at hx ⊢
    tauto

/-- C3: at the failing input (encrypted bundle present and listed as changed)
`decrypt_secrets` raises `AttributeError` — the sops argv reads the
never-assigned `self.sops_filename` — instead of invoking the decryption
tool: no child process is spawned at all, only the announcement line is
printed. -/
theorem decrypt_secrets_crashes_on_secret_change :
    (decrypt_secrets fsEncOnly "a" ["a/.env.enc"]).2.2 = some Crash.attributeError ∧
    (decrypt_secrets fsEncOnly "a" ["a/.env.enc"]).1 =
      [Ev.out "   [Secrets change] Decrypting a/.env.enc to a/.env..."] ∧
    ∀ argv cw cap, Ev.cmd argv cw cap ∉ (decrypt_secrets fsEncOnly "a" ["a/.env.enc"]).1 := by
  refine ⟨by decide, by decide, ?_⟩
  intro argv cw cap h
  have h3 : (decrypt_secrets fsEncOnly "a" ["a/.env.enc"]).1 =
      [Ev.out "   [Secrets change] Decrypting a/.env.enc to a/.env..."] := by decide
  rw [h3] at h
  simp at h

/-- C5: when `app/.env.enc` is not present, sync deletes a present `app/.env`
(and that deletion is its entire effect — no tool invocation, no error), and
does nothing at all when neither file exists; the changed-file list is
irrelevant in both cases. -/
theorem decrypt_secrets_stale_env (fs : String → Bool) (app : String) (changed : List String)
    (henc : fs (app ++ "/.env.enc") = false) :
    (fs (app ++ "/.env") = true →
      decrypt_secrets fs app changed =
        ([Ev.rm (app ++ "/.env")], fsRemove fs (app ++ "/.env"), none)) ∧
    (fs (app ++ "/.env") = false →
      decrypt_secrets fs app changed = ([], fs, none)) := by
  constructor <;> intro h <;> simp [decrypt_secrets, henc, h]

/-- Witness for C5 at a concrete filesystem carrying only a stale `.env`. -/
theorem decrypt_secrets_stale_env_witness :
    decrypt_secrets (fun p => p == "appY/.env") "appY" ["appY/.env.enc"] =
      ([Ev.rm ("appY" ++ "/.env")], fsRemove (fun p => p == "appY/.env") ("appY" ++ "/.env"),
       none) :=
  (decrypt_secrets_stale_env (fun p => p == "appY/.env") "appY" ["appY/.env.enc"]
    (by decide)).1 (by decide)

/-- C9 (frame): sync touches no path other than `app/.env` — every path the
result filesystem differs on is `app/.env`, the only deletion event it can
emit targets `app/.env` (in particular `app/.env.enc` is never removed), and
it spawns no child process whatsoever. -/
theorem decrypt_secrets_frame (fs : String → Bool) (app : String) (changed : List String) :
    (∀ p, p ≠ app ++ "/.env" → (decrypt_secrets fs app changed).2.1 p = fs p) ∧
    (∀ q, Ev.rm q ∈ (decrypt_secrets fs app changed).1 → q = app ++ "/.env") ∧
    (∀ argv cw cap, Ev.cmd argv cw cap ∉ (decrypt_secrets fs app changed).1) := by
  cases henc : fs (app ++ "/.env.enc") <;>
    cases henv : fs (app ++ "/.env") <;>
      cases hany : changed.any (fun f => pyEndsWith f ".env.enc") <;>
        simp only [decrypt_secrets, henc, henv, hany, fsRemove, if_true, if_false] <;>
          refine ⟨?_, ?_, ?_⟩ <;> simp_all

/-- Witness for C9 at a concrete input: the encrypted file survives sync. -/
theorem decrypt_secrets_frame_witness :
    (decrypt_secrets (fun p => p == "appZ/.env") "appZ" []).2.1 ("appZ" ++ "/.env.enc") =
      (fun p => p == "appZ/.env") ("appZ" ++ "/.env.enc") :=
  (decrypt_secrets_frame (fun p => p == "appZ/.env") "appZ" []).1 ("appZ" ++ "/.env.enc")
    (by decide)

/-- C8 (idempotence): running sync a second time with the same application and
changed-file list, starting from the filesystem the first run produced, leaves
that filesystem unchanged; and when the encrypted bundle is not listed as
changed the second run performs no action at all (no events — in particular no
redundant decryption). -/
theorem decrypt_secrets_idempotent (fs : String → Bool) (app : String) (changed : List String) :
    ((decrypt_secrets ((decrypt_secrets fs app changed).2.1) app changed).2.1 =
      (decrypt_secrets fs app changed).2.1) ∧
    (changed.any (fun f => pyEndsWith f ".env.enc") = false →
      (decrypt_secrets ((decrypt_secrets fs app changed).2.1) app changed).1 = []) := by
  cases henc : fs (app ++ "/.env.enc") <;>
    cases henv : fs (app ++ "/.env") <;>
      cases hany : changed.any (fun f => pyEndsWith f ".env.enc") <;>
        simp [decrypt_secrets, henc, henv, hany, fsRemove]

/-- Witness for C8 at a concrete input (stale `.env`, unrelated change set):
the second run changes nothing and emits nothing. -/
theorem decrypt_secrets_idempotent_witness :
    (decrypt_secrets
        ((decrypt_secrets (fun p => p == "appW/.env") "appW" ["appW/README.md"]).2.1)
        "appW" ["appW/README.md"]).1 = [] :=
  (decrypt_secrets_idempotent (fun p => p == "appW/.env") "appW" ["appW/README.md"]).2
    (by decide)

/-- C4: with `build_required` the reconciler issues exactly one engine command,
`up -d --build --remove-orphans`, and never queries container state; without
it, it first queries `ps -q` and then issues `restart` when the stripped
output is non-empty, else `up -d --remove-orphans`; a failure of the query is
treated as empty output and leads to the same `up` path. -/
theorem manipulate_app_action_selection (w : World) (d app : String) :
    ((manipulate_app w d app true).1.filter isCmdEv =
      [Ev.cmd [d, "compose", "up", "-d", "--build", "--remove-orphans"] app false]) ∧
    (∀ raw, w.psRaw app = Except.ok raw → pyStrip raw ≠ "" →
      (manipulate_app w d app false).1.filter isCmdEv =
        [Ev.cmd [d, "compose", "ps", "-q"] app true,
         Ev.cmd [d, "compose", "restart"] app false]) ∧
    (∀ raw, w.psRaw app = Except.ok raw → pyStrip raw = "" →
      (manipulate_app w d app false).1.filter isCmdEv =
        [Ev.cmd [d, "compose", "ps", "-q"] app true,
         Ev.cmd [d, "compose", "up", "-d", "--remove-orphans"] app false]) ∧
    (w.psRaw app = Except.error () →
      (manipulate_app w d app false).1.filter isCmdEv =
        [Ev.cmd [d, "compose", "ps", "-q"] app true,
         Ev.cmd [d, "compose", "up", "-d", "--remove-orphans"] app false]) := by
  refine ⟨?_, ?_, ?_, ?_⟩
  · cases h : w.upBuildRes app <;> simp [manipulate_app, h, isCmdEv]
  · intro raw hra hne
    cases h : w.restartRes app <;> simp [manipulate_app, hra, hne, h, isCmdEv]
  · intro raw hra he
    cases h : w.upRes app <;> simp [manipulate_app, hra, he, h, isCmdEv]
  · intro hra
    cases h : w.upRes app <;> simp [manipulate_app, hra, h, isCmdEv]

/-- Witness for C4: all three action paths at concrete worlds. -/
theorem manipulate_app_action_selection_witness :
    ((manipulate_app W4 "docker" "app1" true).1.filter isCmdEv =
      [Ev.cmd ["docker", "compose", "up", "-d", "--build", "--remove-orphans"] "app1" false]) ∧
    ((manipulate_app W4 "docker" "app1" false).1.filter isCmdEv =
      [Ev.cmd ["docker", "compose", "ps", "-q"] "app1" true,
       Ev.cmd ["docker", "compose", "restart"] "app1" false]) ∧
    ((manipulate_app W6 "docker" "app2" false).1.filter isCmdEv =
      [Ev.cmd ["docker", "compose", "ps", "-q"] "app2" true,
       Ev.cmd ["docker", "compose", "up", "-d", "--remove-orphans"] "app2" false]) :=
  ⟨(manipulate_app_action_selection W4 "docker" "app1").1,
   (manipulate_app_action_selection W4 "docker" "app1").2.1 "abc123\n" rfl (by decide),
   (manipulate_app_action_selection W6 "docker" "app2").2.2.2 rfl⟩

theorem pruneCmdEv_not_mem_decrypt (w : World) (d : String) (fs : String → Bool)
    (a : String) (c : List String) : pruneCmdEv w d ∉ (decrypt_secrets fs a c).1 := by
  cases henc : fs (a ++ "/.env.enc") <;> cases henv : fs (a ++ "/.env") <;>
    cases hany : c.any (fun f => pyEndsWith f ".env.enc") <;>
      simp [decrypt_secrets, henc, henv, hany, pruneCmdEv]

theorem pruneCmdEv_not_mem_manipulate (w : World) (d : String) (a : String) (r : Bool) :
    pruneCmdEv w d ∉ (manipulate_app w d a r).1 := by
  cases r with
  | true => cases h : w.upBuildRes a <;> simp [manipulate_app, h, pruneCmdEv]
  | false =>
    cases hps : w.psRaw a with
    | ok raw =>
      by_cases hne : pyStrip raw = ""
      · cases h : w.upRes a <;> simp [manipulate_app, hps, hne, h, pruneCmdEv]
      · cases h : w.restartRes a <;> simp [manipulate_app, hps, hne, h, pruneCmdEv]
    | error e =>
      cases h : w.upRes a <;> simp [manipulate_app, hps, h, pruneCmdEv]

theorem pruneCmdEv_not_mem_processApp (w : World) (d : String) (fs : String → Bool)
    (a : String) : pruneCmdEv w d ∉ (processApp w d fs a).1 := by
  have hdev := pruneCmdEv_not_mem_decrypt w d fs a (git_changed_files_for_dir w a)
  have hman := pruneCmdEv_not_mem_manipulate w d a (needs_build (git_changed_files_for_dir w a))
  unfold processApp
  by_cases hch : git_changed_files_for_dir w a = []
  · simp [hch, pruneCmdEv, diffCmdEv]
  · rcases hdec : decrypt_secrets fs a (git_changed_files_for_dir w a) with ⟨devs, fs1, oc⟩
    rw [hdec] at hdev
    rcases hm : manipulate_app w d a (needs_build (git_changed_files_for_dir w a)) with ⟨mevs, mc⟩
    rw [hm] at hman
    cases oc with
    | some c =>
      simp only [hch, if_false, hdec]
      simp [pruneCmdEv, diffCmdEv] at hdev ⊢
      exact hdev
    | none =>
      simp only [hch, if_false, hdec, hm]
      cases mc with
      | none =>
        simp [pruneCmdEv, diffCmdEv] at hdev hman ⊢
        exact ⟨hdev, hman⟩
      | some c =>
        cases c <;>
          (simp [pruneCmdEv, diffCmdEv] at hdev hman ⊢; exact ⟨hdev, hman⟩)

theorem pruneCmdEv_not_mem_runApps (w : World) (d : String) :
    ∀ (l : List String) (fs : String → Bool), pruneCmdEv w d ∉ (runApps w d fs l).1 := by
  intro l
  induction l with
  | nil => intro fs; simp [runApps]
  | cons a rest ih =>
    intro fs
    have hp := pruneCmdEv_not_mem_processApp w d fs a
    unfold runApps
    rcases hpa : processApp w d fs a with ⟨evs, fs1, oc⟩
    rw [hpa] at hp
    cases oc with
    | some c => simpa using hp
    | none => simp [List.mem_append, hp, ih fs1]

theorem pruneCmdEv_not_mem_updateEvs (w : World) (d : String) :
    pruneCmdEv w d ∉ updateEvs w := by
  by_cases h : w.fs0 (w.fleetDir ++ "/.gitmodules") = true <;>
    simp [updateEvs, h, pruneCmdEv]

theorem run_crash_no_cleanup (w : World) (d : String) (h : (run w d).2.2 ≠ none) :
    pruneCmdEv w d ∉ (run w d).1 := by
  unfold run
  by_cases hup : w.updateOk = false
  · simp [hup, pruneCmdEv]
  · have hupd := pruneCmdEv_not_mem_updateEvs w d
    have hras := pruneCmdEv_not_mem_runApps w d w.appDirs w.fs0
    rcases hra : runApps w d w.fs0 w.appDirs with ⟨aevs, fs1, oc⟩
    rw [hra] at hras
    cases oc with
    | none =>
      exfalso
      apply h
      unfold run
      simp [hup, hra]
    | some c =>
      simp only [hup, if_false, hra]
      by_cases hemp : w.appDirs = [] <;>
        (simp [hemp, pruneCmdEv] at hupd hras ⊢; exact ⟨hupd, hras⟩)

theorem processApp_setPrune (w : World) (e : Except Unit Unit) (d : String)
    (fs : String → Bool) (a : String) :
    processApp (setPrune w e) d fs a = processApp w d fs a := rfl

theorem runApps_setPrune (w : World) (e : Except Unit Unit) (d : String) :
    ∀ (l : List String) (fs : String → Bool),
      runApps (setPrune w e) d fs l = runApps w d fs l := by
  intro l
  induction l with
  | nil => intro fs; rfl
  | cons a rest ih =>
    intro fs
    unfold runApps
    rw [processApp_setPrune]
    rcases hpa : processApp w d fs a with ⟨evs, fs1, oc⟩
    cases oc with
    | some c => rfl
    | none => dsimp only; rw [ih fs1]

/-- C2 (counterexample): in world `W2` — two applications, the first with a
changed encrypted bundle — the decryption failure escapes the driver loop:
the run crashes, application `b` is never diffed or even announced, and the
global cleanup never runs; the claim says the failure aborts only that
application. -/
theorem fleet_abort_counterexample :
    (run W2 "docker").2.2 = some Crash.attributeError ∧
    diffCmdEv W2 "b" ∉ (run W2 "docker").1 ∧
    Ev.out ">> Processing app: b" ∉ (run W2 "docker").1 ∧
    pruneCmdEv W2 "docker" ∉ (run W2 "docker").1 := by decide

/-- C2 (amended): a failure of the secret-decryption step is NOT caught by the
driver — the `decrypt_secrets` call sits outside `run`'s try/except — so it
aborts the entire fleet run: the loop stops with the exception, no later
application is diffed, and (third conjunct, for any crashed run) the global
cleanup is never reached. -/
theorem decrypt_failure_aborts_fleet (w : World) (d : String) (fs : String → Bool)
    (a : String) (rest : List String)
    (henc : fs (a ++ "/.env.enc") = true)
    (hne : git_changed_files_for_dir w a ≠ [])
    (hmatch : (git_changed_files_for_dir w a).any (fun f => pyEndsWith f ".env.enc") = true) :
    (runApps w d fs (a :: rest)).2.2 = some Crash.attributeError ∧
    (∀ r ∈ rest, r ≠ a → diffCmdEv w r ∉ (runApps w d fs (a :: rest)).1) ∧
    (∀ (w' : World) (d' : String), (run w' d').2.2 ≠ none →
      pruneCmdEv w' d' ∉ (run w' d').1) := by
  have hdec : decrypt_secrets fs a (git_changed_files_for_dir w a) =
      ([Ev.out ("   [Secrets change] Decrypting " ++ (a ++ "/.env.enc") ++ " to " ++
          (a ++ "/.env") ++ "...")], fs, some Crash.attributeError) := by
    simp [decrypt_secrets, henc, hmatch]
  have hpa : processApp w d fs a =
      ([Ev.out (">> Processing app: " ++ a), diffCmdEv w a,
        Ev.out ("   [Secrets change] Decrypting " ++ (a ++ "/.env.enc") ++ " to " ++
          (a ++ "/.env") ++ "...")], fs, some Crash.attributeError) := by
    simp [processApp, hne, hdec]
  have hrun : runApps w d fs (a :: rest) =
      ([Ev.out (">> Processing app: " ++ a), diffCmdEv w a,
        Ev.out ("   [Secrets change] Decrypting " ++ (a ++ "/.env.enc") ++ " to " ++
          (a ++ "/.env") ++ "...")], fs, some Crash.attributeError) := by
    unfold runApps
    rw [hpa]
  refine ⟨by rw [hrun], ?_, fun w' d' h => run_crash_no_cleanup w' d' h⟩
  intro r hr hra
  rw [hrun]
  simp [diffCmdEv, hra]

/-- Witness for C2's amended theorem at the concrete world `W2`. -/
theorem decrypt_failure_aborts_fleet_witness :
    (runApps W2 "docker" W2.fs0 ["a", "b"]).2.2 = some Crash.attributeError ∧
    diffCmdEv W2 "b" ∉ (runApps W2 "docker" W2.fs0 ["a", "b"]).1 :=
  ⟨(decrypt_failure_aborts_fleet W2 "docker" W2.fs0 "a" ["b"]
      (by decide) (by decide) (by decide)).1,
   (decrypt_failure_aborts_fleet W2 "docker" W2.fs0 "a" ["b"]
      (by decide) (by decide) (by decide)).2.1 "b" (by decide) (by decide)⟩

/-- C6: a diff failure yields the empty change list instead of propagating;
an application with an empty change list is skipped — its loop iteration
emits only the processing banner, the diff command and the skip line, leaves
the filesystem untouched (so zero engine commands and zero secret-sync
actions for that directory) — and the loop then continues with the remaining
applications exactly as if it had started there. -/
theorem diff_failure_skips_app :
    (∀ (w : World) (a : String), w.diffRaw a = Except.error () →
      git_changed_files_for_dir w a = []) ∧
    (∀ (w : World) (d : String) (fs : String → Bool) (a : String),
      git_changed_files_for_dir w a = [] →
      processApp w d fs a =
        ([Ev.out (">> Processing app: " ++ a), diffCmdEv w a,
          Ev.out ("   [No changes] Skipping " ++ a)], fs, none)) ∧
    (∀ (w : World) (d : String) (fs : String → Bool) (a : String) (rest : List String),
      git_changed_files_for_dir w a = [] →
      runApps w d fs (a :: rest) =
        ((processApp w d fs a).1 ++ (runApps w d fs rest).1, (runApps w d fs rest).2)) := by
  have h2 : ∀ (w : World) (d : String) (fs : String → Bool) (a : String),
      git_changed_files_for_dir w a = [] →
      processApp w d fs a =
        ([Ev.out (">> Processing app: " ++ a), diffCmdEv w a,
          Ev.out ("   [No changes] Skipping " ++ a)], fs, none) := by
    intro w d fs a h
    simp [processApp, h]
  refine ⟨?_, h2, ?_⟩
  · intro w a h
    simp [git_changed_files_for_dir, h]
  · intro w d fs a rest h
    simp [runApps, h2 w d fs a h]

/-- Witness for C6 at the concrete world `W6`, whose diff command fails for
`app1`. -/
theorem diff_failure_skips_app_witness :
    git_changed_files_for_dir W6 "app1" = [] ∧
    processApp W6 "docker" W6.fs0 "app1" =
      ([Ev.out (">> Processing app: " ++ "app1"), diffCmdEv W6 "app1",
        Ev.out ("   [No changes] Skipping " ++ "app1")], W6.fs0, none) :=
  ⟨diff_failure_skips_app.1 W6 "app1" rfl,
   diff_failure_skips_app.2.1 W6 "docker" W6.fs0 "app1"
     (diff_failure_skips_app.1 W6 "app1" rfl)⟩

/-- C7 (counterexample): in world `W7` the run passes the repository update,
yet — because the one application's secret decryption raises — the global
cleanup never runs, contradicting "runs exactly once even when some
applications failed". -/
theorem cleanup_skipped_counterexample :
    W7.updateOk = true ∧
    (run W7 "docker").2.2 = some Crash.attributeError ∧
    pruneCmdEv W7 "docker" ∉ (run W7 "docker").1 := by decide

/-- C7 (amended): in every run that completes without an uncaught exception
(repository update passed and no secret-decryption failure escaped; caught
reconciliation failures are fine), the cleanup runs exactly once, after all
applications: the trace ends with the cleanup block and the completion
banner, the prune command appears nowhere before that block, a prune failure
only appends a stderr warning, and a prune failure does not change the run's
outcome. -/
theorem cleanup_exactly_once (w : World) (d : String) (h : (run w d).2.2 = none) :
    (∃ t warn,
      (run w d).1 =
        t ++ ([Ev.out ">> Pruning system...", pruneCmdEv w d] ++ warn) ++
          [Ev.out "--- Deployment Complete ---"] ∧
      pruneCmdEv w d ∉ t ∧ pruneCmdEv w d ∉ warn ∧
      (w.pruneRes = Except.error () → warn = [Ev.err "WARNING: docker system prune failed"]) ∧
      (w.pruneRes = Except.ok () → warn = [])) ∧
    (run (setPrune w (Except.error ())) d).2.2 = none := by
  unfold run at h ⊢
  by_cases hup : w.updateOk = false
  · simp [hup] at h
  · have hupd := pruneCmdEv_not_mem_updateEvs w d
    have hras := pruneCmdEv_not_mem_runApps w d w.appDirs w.fs0
    rcases hra : runApps w d w.fs0 w.appDirs with ⟨aevs, fs1, oc⟩
    rw [hra] at hras
    cases oc with
    | some c => rw [hra] at h; simp [hup] at h
    | none =>
      constructor
      · refine ⟨([Ev.out "--- Starting Deployment ---"] ++ updateEvs w ++
          (if w.appDirs = [] then [Ev.out ">> No compose files found. Nothing to do."] else [])) ++
          aevs,
          (match w.pruneRes with
           | Except.ok _ => []
           | Except.error _ => [Ev.err "WARNING: docker system prune failed"]), ?_, ?_, ?_, ?_, ?_⟩
        · simp only [hup, if_false, hra, global_cleanup]
          simp [List.append_assoc]
        · by_cases hemp : w.appDirs = [] <;>
            (simp [hemp, pruneCmdEv] at hupd hras ⊢; exact ⟨hupd, hras⟩)
        · cases hpr : w.pruneRes <;> simp [pruneCmdEv]
        · intro hpr; rw [hpr]
        · intro hpr; rw [hpr]
      · rw [runApps_setPrune]
        simp [setPrune, hup, hra]

/-- Witness for C7's amended theorem at the concrete world `W4` (whose run
completes normally). -/
theorem cleanup_exactly_once_witness :
    (run (setPrune W4 (Except.error ())) "docker").2.2 = none :=
  (cleanup_exactly_once W4 "docker" (by decide)).2

end Deploy
